import Mathlib

/-!
# The cluster access layer of `chpa` (`client/k8s.go`)

A shallow embedding of the functions of `client/k8s.go` and the properties
they have.  The process-wide handles `clientset` and `dynClient` are the
record `Clientset`; the cluster behind them is a state `σ` that every request
may read and change.  A `World` carries that state together with the trace of
requests issued and the lines written through `logrus`.
-/

namespace Chpa

/-! ## Values -/

/-- A Go `error` value, told apart by its message.  The nilable interface
`error` is `Option GoError`, with `none` for `nil`. -/
structure GoError where
  msg : String
deriving DecidableEq, Repr

/-- The part of `metav1.ObjectMeta` the access layer and its callers look at. -/
structure ObjectMeta where
  Name : String
  Namespace : String
  ResourceVersion : String
deriving DecidableEq, Repr

/-- A `corev1.Namespace`: `ObjectMeta` is embedded, so `n.Name` is the name. -/
structure Namespace extends ObjectMeta
deriving DecidableEq, Repr

/-- An `appsv1.Deployment`, with its embedded `ObjectMeta` and `Spec.Replicas`. -/
structure Deployment extends ObjectMeta where
  Replicas : Option Int
deriving DecidableEq, Repr

/-- An `autoscalingv1.HorizontalPodAutoscaler`, with its embedded `ObjectMeta`
and the three fields of its `Spec` that bound scaling. -/
structure HorizontalPodAutoscaler extends ObjectMeta where
  MinReplicas : Option Int
  MaxReplicas : Int
  TargetCPUUtilizationPercentage : Option Int
deriving DecidableEq, Repr

/-- A `schema.GroupVersionResource`. -/
structure GroupVersionResource where
  Group : String
  Version : String
  Resource : String
deriving DecidableEq, Repr

/-- Modelled from the spec: the field `Spec.ScaleTargetRef` of
`model.CronScaleV1` (package `k8s.io/mouse/model`, not among the sources),
a pair of a kind and a name. -/
structure ScaleTargetRef where
  Kind : String
  Name : String
deriving DecidableEq, Repr

/-- Modelled from the spec: the field `Spec` of `model.CronScaleV1`, with the
attributes of the data model (`cronSpec`, `minReplicas`, `maxReplicas`,
`targetCPUUtilizationPercentage`, `scaleTargetRef`) under the Go names used at
`k8s.go:87`. -/
structure CronScaleSpec where
  CronSpec : String
  MinReplicas : Int
  MaxReplicas : Int
  TargetCPUUtilizationPercentage : Int
  ScaleTargetRef : ScaleTargetRef
deriving DecidableEq, Repr

/-- Modelled from the spec: the field `Metadata` of `model.CronScaleV1`
(`cs.Metadata.Name` at `k8s.go:87`). -/
structure CronScaleMetadata where
  Name : String
deriving DecidableEq, Repr

/-- Modelled from the spec: the type `model.CronScaleV1`, which is declared in
package `k8s.io/mouse/model` and is not among the sources. -/
structure CronScaleV1 where
  Metadata : CronScaleMetadata
  Spec : CronScaleSpec
deriving DecidableEq, Repr

/-- The Go zero value `model.CronScaleV1{}`: empty strings and zero integers. -/
def CronScaleV1.zero : CronScaleV1 :=
  { Metadata := { Name := "" },
    Spec := { CronSpec := "", MinReplicas := 0, MaxReplicas := 0,
              TargetCPUUtilizationPercentage := 0,
              ScaleTargetRef := { Kind := "", Name := "" } } }

/-! ## The world: cluster state, request trace, log -/

/-- A line written through `logrus`: `Println` or `Errorln`. -/
inductive LogLine where
  | println (msg : String)
  | errorln (msg : String)
deriving DecidableEq, Repr

/-- A request sent to the cluster through `clientset` or `dynClient`. -/
inductive ApiCall where
  | NamespacesList
  | ResourceList (crd : GroupVersionResource) (ns : String)
  | DeploymentsGet (ns name : String)
  | DeploymentsUpdate (ns : String) (deployment : Deployment)
  | HorizontalPodAutoscalersGet (ns name : String)
  | HorizontalPodAutoscalersUpdate (ns : String) (hpa : HorizontalPodAutoscaler)
deriving DecidableEq, Repr

/-- The two package-level handles `clientset` and `dynClient`, as the requests
the file makes through them.  Each request reads the cluster state `σ`, may
change it, and answers with a Go pair `(value, error)`.  `U` is the type of
the items of a dynamic listing (`unstructured.Unstructured`).  The handles are
taken as built: `BuildClient` has run and succeeded. -/
structure Clientset (σ : Type) (U : Type) where
  NamespacesList : σ → (List Namespace × Option GoError) × σ
  ResourceList : GroupVersionResource → String → σ → (List U × Option GoError) × σ
  DeploymentsGet : String → String → σ → (Option Deployment × Option GoError) × σ
  DeploymentsUpdate : String → Deployment → σ → (Option Deployment × Option GoError) × σ
  HorizontalPodAutoscalersGet :
    String → String → σ → (Option HorizontalPodAutoscaler × Option GoError) × σ
  HorizontalPodAutoscalersUpdate :
    String → HorizontalPodAutoscaler → σ →
      (Option HorizontalPodAutoscaler × Option GoError) × σ

/-- The JSON codec `GetAllCRD` goes through: `entry.MarshalJSON()` on a listed
item and `json.Unmarshal(b, &cs)` into a `CronScaleV1`.  `Unmarshal` gets the
value behind the pointer and returns what it leaves there, with the error. -/
structure Codec (U : Type) (B : Type) where
  MarshalJSON : U → B × Option GoError
  Unmarshal : B → CronScaleV1 → CronScaleV1 × Option GoError

/-- Everything a call can affect: the cluster, the requests issued so far (in
order) and the log written so far (in order). -/
structure World (σ : Type) where
  store : σ
  calls : List ApiCall
  log : List LogLine

/-- The effect of `logrus.Println(msg)`. -/
def World.Println {σ : Type} (w : World σ) (msg : String) : World σ :=
  { w with log := w.log ++ [LogLine.println msg] }

/-- The effect of `logrus.Errorln(err)`: the error's message goes to the log. -/
def World.Errorln {σ : Type} (w : World σ) (err : GoError) : World σ :=
  { w with log := w.log ++ [LogLine.errorln err.msg] }

/-- The effect of one request: it is appended to the trace and answered by the
cluster, whose state moves on. -/
def World.request {σ α : Type} (w : World σ) (c : ApiCall) (f : σ → α × σ) :
    α × World σ :=
  let r := f w.store
  (r.1, { w with store := r.2, calls := w.calls ++ [c] })

/-- The effect of `fmt.Errorf("could not list %s", err)`. -/
def couldNotList (err : GoError) : GoError :=
  { msg := "could not list " ++ err.msg }

/-! ## The functions of `client/k8s.go` -/

/-- The function `GetAllNS` (`k8s.go:51-63`).  A `nil` slice is `none`; the
slice made by `make` is `some`, written slot by slot in the `range` loop. -/
def GetAllNS {σ U : Type} (clientset : Clientset σ U) (w : World σ) :
    (Option (List String) × Option GoError) × World σ :=
  let w := w.Println "== getting namespaces =="
  let (r, w) := w.request ApiCall.NamespacesList clientset.NamespacesList
  let (ls, err) := r
  match err with
  | some e => ((none, err), w.Errorln e)
  | none =>
    let result := List.replicate ls.length ""
    let result := ls.enum.foldl (fun result (i, n) => result.set i n.Name) result
    ((some result, none), w)

/-- The body of the `range` loop of `GetAllCRD` (`k8s.go:75-88`), run for the
item `entry` at index `i` on the slice `result` and the world `w`.  The `err`
of the loop is declared by `:=` inside the body, so the function's result
`err` is not touched.  A failed `MarshalJSON` is logged and the item is left
(`continue`); a failed `Unmarshal` is logged and `cs` is stored all the same. -/
def GetAllCRD.body {σ U B : Type} (codec : Codec U B)
    (acc : List CronScaleV1 × World σ) (ie : Nat × U) : List CronScaleV1 × World σ :=
  let (result, w) := acc
  let (i, entry) := ie
  let (b, err) := codec.MarshalJSON entry
  match err with
  | some e => (result, w.Errorln e)
  | none =>
    let cs := CronScaleV1.zero
    let (cs, err) := codec.Unmarshal b cs
    let w := match err with
      | some e => w.Errorln e
      | none => w
    (result.set i cs, w)

/-- The function `GetAllCRD` (`k8s.go:65-90`).  Both results are named, and
every `return` is bare: on a failed listing `result` is still `nil`, on a
successful one `err` is still what the listing returned. -/
def GetAllCRD {σ U B : Type} (dynClient : Clientset σ U) (codec : Codec U B)
    (nspace : String) (crd : GroupVersionResource) (w : World σ) :
    (Option (List CronScaleV1) × Option GoError) × World σ :=
  let w := w.Println "== getting CRDs =="
  let (r, w) := w.request (ApiCall.ResourceList crd nspace) (dynClient.ResourceList crd nspace)
  let (ls, err) := r
  match err with
  | some e => ((none, err), w.Errorln (couldNotList e))
  | none =>
    let result := List.replicate ls.length CronScaleV1.zero
    let (result, w) := ls.enum.foldl (GetAllCRD.body codec) (result, w)
    ((some result, err), w)

/-- The function `GetDeployment` (`k8s.go:92-100`): both results are named and
are whatever `Get` returned. -/
def GetDeployment {σ U : Type} (clientset : Clientset σ U) (ns name : String)
    (w : World σ) : (Option Deployment × Option GoError) × World σ :=
  let w := w.Println "== getting deployment =="
  let (r, w) := w.request (ApiCall.DeploymentsGet ns name) (clientset.DeploymentsGet ns name)
  let (deployment, err) := r
  match err with
  | some e => ((deployment, err), w.Errorln e)
  | none => ((deployment, err), w)

/-- The function `UpdateDeployment` (`k8s.go:102-106`).  The argument is the
object behind the pointer, which the function dereferences before it sends
anything; the namespace of the request is read off the object.  The error is
returned without being logged. -/
def UpdateDeployment {σ U : Type} (clientset : Clientset σ U) (deployment : Deployment)
    (w : World σ) : Option GoError × World σ :=
  let w := w.Println "== update deployment =="
  let (r, w) := w.request (ApiCall.DeploymentsUpdate deployment.Namespace deployment)
    (clientset.DeploymentsUpdate deployment.Namespace deployment)
  let (_, err) := r
  (err, w)

/-- The function `GetHPA` (`k8s.go:108-116`). -/
def GetHPA {σ U : Type} (clientset : Clientset σ U) (ns name : String)
    (w : World σ) : (Option HorizontalPodAutoscaler × Option GoError) × World σ :=
  let w := w.Println "== getting HPA =="
  let (r, w) := w.request (ApiCall.HorizontalPodAutoscalersGet ns name)
    (clientset.HorizontalPodAutoscalersGet ns name)
  let (hpa, err) := r
  match err with
  | some e => ((hpa, err), w.Errorln e)
  | none => ((hpa, err), w)

/-- The function `UpdateHPA` (`k8s.go:118-126`).  The namespace of the request
is the argument `ns`. -/
def UpdateHPA {σ U : Type} (clientset : Clientset σ U) (ns : String)
    (hpa : HorizontalPodAutoscaler) (w : World σ) : Option GoError × World σ :=
  let w := w.Println "== updating HPA =="
  let (r, w) := w.request (ApiCall.HorizontalPodAutoscalersUpdate ns hpa)
    (clientset.HorizontalPodAutoscalersUpdate ns hpa)
  let (_, err) := r
  match err with
  | some e => (err, w.Errorln e)
  | none => (err, w)

/-! ## A reference codec

`entry.MarshalJSON` and `json.Unmarshal` belong to libraries; the functions
above take them as the parameter `Codec`.  What follows is one codec, used to
instantiate the general statements: items are trees of Go values, the bytes of
a JSON text are stood for by the document they spell, and decoding into a
`CronScaleV1` follows the rules `encoding/json` documents for struct targets
(a key that is not a field is skipped, `null` leaves the field as it is, a
value of the wrong type leaves the field as it is, the earliest such error is
the one returned, and decoding goes on with the remaining keys).  Keys are
compared exactly. -/

/-- A Go value an `unstructured.Unstructured` can hold under a key.  `nan` is
a `float64` that is not a number, which `encoding/json` refuses to encode. -/
inductive Value where
  | null
  | bool (b : Bool)
  | int (n : Int)
  | str (s : String)
  | nan
  | list (items : List Value)
  | obj (fields : List (String × Value))

/-- An `unstructured.Unstructured`: its `Object` map, the keys in the order the
encoder writes them. -/
structure Unstructured where
  Object : List (String × Value)

mutual
/-- Whether `encoding/json` can encode the value: no `nan` anywhere in it. -/
def Value.encodable : Value → Bool
  | .nan => false
  | .list items => encodableList items
  | .obj fields => encodableFields fields
  | _ => true
/-- Whether every value of the list is encodable. -/
def encodableList : List Value → Bool
  | [] => true
  | v :: vs => v.encodable && encodableList vs
/-- Whether every value under a key is encodable. -/
def encodableFields : List (String × Value) → Bool
  | [] => true
  | (_, v) :: fs => v.encodable && encodableFields fs
end

/-- The JSON name of the kind of a value, as error messages print it. -/
def Value.kindName : Value → String
  | .null => "null"
  | .bool _ => "bool"
  | .int _ => "number"
  | .str _ => "string"
  | .nan => "number"
  | .list _ => "array"
  | .obj _ => "object"

/-- The `json.UnmarshalTypeError` for a value that does not fit a field. -/
def typeError (v : Value) (field : String) : GoError :=
  { msg := "json: cannot unmarshal " ++ v.kindName ++ " into Go struct field " ++ field }

/-- The error `MarshalJSON` returns for a value it cannot encode. -/
def unsupportedValue : GoError :=
  { msg := "json: unsupported value: NaN" }

/-- The decoder keeps the earliest error it met. -/
def saveError (saved err : Option GoError) : Option GoError :=
  match saved with
  | some e => some e
  | none => err

/-- Decoding into a `string` field. -/
def decodeString (field : String) (v : Value) (cur : String) : String × Option GoError :=
  match v with
  | .str s => (s, none)
  | .null => (cur, none)
  | v => (cur, some (typeError v field))

/-- Decoding into an integer field. -/
def decodeInt (field : String) (v : Value) (cur : Int) : Int × Option GoError :=
  match v with
  | .int n => (n, none)
  | .null => (cur, none)
  | v => (cur, some (typeError v field))

/-- Modelled from the spec: the JSON keys of `Spec.ScaleTargetRef` are `kind`
and `name`.  One key of the object decoded into `Spec.ScaleTargetRef`. -/
def decodeScaleTargetRefKey (acc : ScaleTargetRef × Option GoError) (kv : String × Value) :
    ScaleTargetRef × Option GoError :=
  let (ref, saved) := acc
  if kv.1 = "kind" then
    let (s, e) := decodeString "kind" kv.2 ref.Kind
    ({ ref with Kind := s }, saveError saved e)
  else if kv.1 = "name" then
    let (s, e) := decodeString "name" kv.2 ref.Name
    ({ ref with Name := s }, saveError saved e)
  else acc

/-- Decoding into the struct field `Spec.ScaleTargetRef`. -/
def decodeScaleTargetRef (v : Value) (cur : ScaleTargetRef) :
    ScaleTargetRef × Option GoError :=
  match v with
  | .obj fields => fields.foldl decodeScaleTargetRefKey (cur, none)
  | .null => (cur, none)
  | v => (cur, some (typeError v "scaleTargetRef"))

/-- Modelled from the spec: the JSON keys of the fields of `Spec` (the struct
tags of `model.CronScaleV1` are not among the sources) are the attribute names
of the data model.  One key of the object decoded into `Spec`. -/
def decodeSpecKey (acc : CronScaleSpec × Option GoError) (kv : String × Value) :
    CronScaleSpec × Option GoError :=
  let (spec, saved) := acc
  if kv.1 = "cronSpec" then
    let (s, e) := decodeString "cronSpec" kv.2 spec.CronSpec
    ({ spec with CronSpec := s }, saveError saved e)
  else if kv.1 = "minReplicas" then
    let (n, e) := decodeInt "minReplicas" kv.2 spec.MinReplicas
    ({ spec with MinReplicas := n }, saveError saved e)
  else if kv.1 = "maxReplicas" then
    let (n, e) := decodeInt "maxReplicas" kv.2 spec.MaxReplicas
    ({ spec with MaxReplicas := n }, saveError saved e)
  else if kv.1 = "targetCPUUtilizationPercentage" then
    let (n, e) := decodeInt "targetCPUUtilizationPercentage" kv.2
      spec.TargetCPUUtilizationPercentage
    ({ spec with TargetCPUUtilizationPercentage := n }, saveError saved e)
  else if kv.1 = "scaleTargetRef" then
    let (r, e) := decodeScaleTargetRef kv.2 spec.ScaleTargetRef
    ({ spec with ScaleTargetRef := r }, saveError saved e)
  else acc

/-- Decoding into the struct field `Spec`. -/
def decodeSpec (v : Value) (cur : CronScaleSpec) : CronScaleSpec × Option GoError :=
  match v with
  | .obj fields => fields.foldl decodeSpecKey (cur, none)
  | .null => (cur, none)
  | v => (cur, some (typeError v "spec"))

/-- Modelled from the spec: the JSON key of `Metadata.Name` is `name`, the name
half of the identity of a CronScale.  One key of the object decoded into
`Metadata`. -/
def decodeMetadataKey (acc : CronScaleMetadata × Option GoError) (kv : String × Value) :
    CronScaleMetadata × Option GoError :=
  let (m, saved) := acc
  if kv.1 = "name" then
    let (s, e) := decodeString "name" kv.2 m.Name
    ({ m with Name := s }, saveError saved e)
  else acc

/-- Decoding into the struct field `Metadata`. -/
def decodeMetadata (v : Value) (cur : CronScaleMetadata) :
    CronScaleMetadata × Option GoError :=
  match v with
  | .obj fields => fields.foldl decodeMetadataKey (cur, none)
  | .null => (cur, none)
  | v => (cur, some (typeError v "metadata"))

/-- Modelled from the spec: the JSON keys of `Metadata` and `Spec` are
`metadata` and `spec`.  One key of the document decoded into a `CronScaleV1`. -/
def decodeCronScaleKey (acc : CronScaleV1 × Option GoError) (kv : String × Value) :
    CronScaleV1 × Option GoError :=
  let (cs, saved) := acc
  if kv.1 = "metadata" then
    let (m, e) := decodeMetadata kv.2 cs.Metadata
    ({ cs with Metadata := m }, saveError saved e)
  else if kv.1 = "spec" then
    let (s, e) := decodeSpec kv.2 cs.Spec
    ({ cs with Spec := s }, saveError saved e)
  else acc

/-- The reference codec.  `MarshalJSON` fails on an item that holds a value
JSON cannot spell and returns no bytes then; `Unmarshal` decodes the document
key by key into the value it is given. -/
def jsonCodec : Codec Unstructured (List (String × Value)) where
  MarshalJSON := fun entry =>
    if encodableFields entry.Object then (entry.Object, none) else ([], some unsupportedValue)
  Unmarshal := fun b cs => b.foldl decodeCronScaleKey (cs, none)

/-! ## A reference cluster

One cluster behind the `Clientset`: objects held in lists, reads that find an
object by namespace and name, and updates that are refused when the version
token of the submitted object is not the one held (optimistic concurrency). -/

/-- The state of the reference cluster. -/
structure Cluster (U : Type) where
  reachable : Bool
  namespaces : List Namespace
  resources : List (GroupVersionResource × String × U)
  deployments : List Deployment
  hpas : List HorizontalPodAutoscaler

/-- The error of a request to a cluster that cannot be reached. -/
def connectionRefused : GoError := { msg := "connection refused" }

/-- The error of a request for an object the cluster does not hold. -/
def notFound (name : String) : GoError := { msg := name ++ " not found" }

/-- The error of an update whose version token is stale. -/
def versionConflict (name : String) : GoError :=
  { msg := "Operation cannot be fulfilled on " ++ name ++
      ": the object has been modified; please apply your changes to the latest version and try again" }

/-- The error of an update sent to a namespace other than the object's own. -/
def namespaceMismatch : GoError :=
  { msg := "the namespace of the provided object does not match the namespace sent on the request" }

/-- Listing the namespaces of the reference cluster. -/
def Cluster.NamespacesList {U : Type} (c : Cluster U) :
    (List Namespace × Option GoError) × Cluster U :=
  if c.reachable then ((c.namespaces, none), c) else (([], some connectionRefused), c)

/-- Listing the custom resources of one kind in one namespace. -/
def Cluster.ResourceList {U : Type} (crd : GroupVersionResource) (ns : String)
    (c : Cluster U) : (List U × Option GoError) × Cluster U :=
  if c.reachable then
    (((c.resources.filter (fun r => r.1 = crd ∧ r.2.1 = ns)).map (fun r => r.2.2), none), c)
  else (([], some connectionRefused), c)

/-- Reading a deployment by namespace and name. -/
def Cluster.DeploymentsGet {U : Type} (ns name : String) (c : Cluster U) :
    (Option Deployment × Option GoError) × Cluster U :=
  if c.reachable then
    match c.deployments.find? (fun d => d.Namespace = ns ∧ d.Name = name) with
    | some d => ((some d, none), c)
    | none => ((none, some (notFound name)), c)
  else ((none, some connectionRefused), c)

/-- Updating a deployment: accepted only when the object is held under the
namespace of the request and carries the version token currently held; the
held object is then replaced and gets a new token. -/
def Cluster.DeploymentsUpdate {U : Type} (ns : String) (d : Deployment) (c : Cluster U) :
    (Option Deployment × Option GoError) × Cluster U :=
  if c.reachable then
    if d.Namespace = ns then
      match c.deployments.find? (fun x => x.Namespace = ns ∧ x.Name = d.Name) with
      | some cur =>
        if cur.ResourceVersion = d.ResourceVersion then
          let d1 := { d with ResourceVersion := d.ResourceVersion ++ "+" }
          ((some d1, none),
            { c with deployments :=
                c.deployments.map (fun x => if x.Namespace = ns ∧ x.Name = d.Name then d1 else x) })
        else ((none, some (versionConflict d.Name)), c)
      | none => ((none, some (notFound d.Name)), c)
    else ((none, some namespaceMismatch), c)
  else ((none, some connectionRefused), c)

/-- Reading an autoscaler by namespace and name. -/
def Cluster.HorizontalPodAutoscalersGet {U : Type} (ns name : String) (c : Cluster U) :
    (Option HorizontalPodAutoscaler × Option GoError) × Cluster U :=
  if c.reachable then
    match c.hpas.find? (fun h => h.Namespace = ns ∧ h.Name = name) with
    | some h => ((some h, none), c)
    | none => ((none, some (notFound name)), c)
  else ((none, some connectionRefused), c)

/-- Updating an autoscaler, under the same rules as a deployment. -/
def Cluster.HorizontalPodAutoscalersUpdate {U : Type} (ns : String)
    (h : HorizontalPodAutoscaler) (c : Cluster U) :
    (Option HorizontalPodAutoscaler × Option GoError) × Cluster U :=
  if c.reachable then
    if h.Namespace = ns then
      match c.hpas.find? (fun x => x.Namespace = ns ∧ x.Name = h.Name) with
      | some cur =>
        if cur.ResourceVersion = h.ResourceVersion then
          let h1 := { h with ResourceVersion := h.ResourceVersion ++ "+" }
          ((some h1, none),
            { c with hpas :=
                c.hpas.map (fun x => if x.Namespace = ns ∧ x.Name = h.Name then h1 else x) })
        else ((none, some (versionConflict h.Name)), c)
      | none => ((none, some (notFound h.Name)), c)
    else ((none, some namespaceMismatch), c)
  else ((none, some connectionRefused), c)

/-- The `Clientset` whose requests go to the reference cluster. -/
def clusterClientset (U : Type) : Clientset (Cluster U) U where
  NamespacesList := Cluster.NamespacesList
  ResourceList := Cluster.ResourceList
  DeploymentsGet := Cluster.DeploymentsGet
  DeploymentsUpdate := Cluster.DeploymentsUpdate
  HorizontalPodAutoscalersGet := Cluster.HorizontalPodAutoscalersGet
  HorizontalPodAutoscalersUpdate := Cluster.HorizontalPodAutoscalersUpdate

/-- A world at the start of a run: nothing requested, nothing logged. -/
def World.start {σ : Type} (store : σ) : World σ :=
  { store := store, calls := [], log := [] }

/-! ## Notions used in the statements -/

/-- What the loop of `GetAllCRD` leaves in the slot of `entry` on a slice made
by `make`: the zero value when `MarshalJSON` fails, and otherwise what
`Unmarshal` leaves in a zero `CronScaleV1`, whether or not it fails. -/
def GetAllCRD.slot {U B : Type} (codec : Codec U B) (entry : U) : CronScaleV1 :=
  match (codec.MarshalJSON entry).2 with
  | some _ => CronScaleV1.zero
  | none => (codec.Unmarshal (codec.MarshalJSON entry).1 CronScaleV1.zero).1

/-- The lines the loop of `GetAllCRD` logs for `entry`: the error of
`MarshalJSON`, or else the error of `Unmarshal`, or else nothing. -/
def GetAllCRD.lines {U B : Type} (codec : Codec U B) (entry : U) : List LogLine :=
  match (codec.MarshalJSON entry).2 with
  | some e => [LogLine.errorln e.msg]
  | none =>
    match (codec.Unmarshal (codec.MarshalJSON entry).1 CronScaleV1.zero).2 with
    | some e => [LogLine.errorln e.msg]
    | none => []

/-- The invariant of the data model on a CronScale: `0 ≤ minReplicas ≤
maxReplicas` and `0 < targetCPUUtilizationPercentage ≤ 100`. -/
def CronScaleV1.valid (cs : CronScaleV1) : Prop :=
  0 ≤ cs.Spec.MinReplicas ∧ cs.Spec.MinReplicas ≤ cs.Spec.MaxReplicas ∧
    0 < cs.Spec.TargetCPUUtilizationPercentage ∧ cs.Spec.TargetCPUUtilizationPercentage ≤ 100

instance (cs : CronScaleV1) : Decidable cs.valid := by
  unfold CronScaleV1.valid
  infer_instance

/-! ## Example data -/

/-- The kind under which the examples list CronScale resources. -/
def cronscales : GroupVersionResource :=
  { Group := "k8s.io", Version := "v1", Resource := "cronscales" }

/-- A well-formed CronScale item: weekdays, 3 to 10 replicas at 60% CPU, on
the deployment `api`. -/
def officeHours : Unstructured :=
  { Object := [("metadata", .obj [("name", .str "office-hours")]),
      ("spec", .obj [("cronSpec", .str "Mon-Fri 09:00-18:00 UTC"), ("maxReplicas", .int 10),
        ("minReplicas", .int 3),
        ("scaleTargetRef", .obj [("kind", .str "Deployment"), ("name", .str "api")]),
        ("targetCPUUtilizationPercentage", .int 60)])] }

/-- An item whose `minReplicas` is a string: it encodes, and does not decode
into the integer field. -/
def wrongType : Unstructured :=
  { Object := [("spec", .obj [("maxReplicas", .int 10), ("minReplicas", .str "three")])] }

/-- An item whose `spec` is a string: it encodes, and no field of it decodes. -/
def specIsString : Unstructured :=
  { Object := [("spec", .str "none")] }

/-- An item that holds a float that is not a number: it does not encode. -/
def unencodable : Unstructured :=
  { Object := [("spec", .obj [("maxReplicas", .int 10), ("targetCPUUtilizationPercentage", .nan)])] }

/-- An item with no keys: it decodes, without error, to the zero value. -/
def emptyItem : Unstructured :=
  { Object := [] }

/-- An item that decodes without error to bounds the data model excludes. -/
def inverted : Unstructured :=
  { Object := [("spec", .obj [("maxReplicas", .int 2), ("minReplicas", .int 5),
      ("targetCPUUtilizationPercentage", .int 150)])] }

/-- The CronScale that `officeHours` decodes to. -/
def officeHoursScale : CronScaleV1 :=
  { Metadata := { Name := "office-hours" },
    Spec := { CronSpec := "Mon-Fri 09:00-18:00 UTC", MinReplicas := 3, MaxReplicas := 10,
              TargetCPUUtilizationPercentage := 60,
              ScaleTargetRef := { Kind := "Deployment", Name := "api" } } }

/-- The CronScale that `Unmarshal` leaves for `wrongType`: `MaxReplicas` is
set, `MinReplicas` is not. -/
def partlyDecoded : CronScaleV1 :=
  { Metadata := { Name := "" },
    Spec := { CronSpec := "", MinReplicas := 0, MaxReplicas := 10,
              TargetCPUUtilizationPercentage := 0,
              ScaleTargetRef := { Kind := "", Name := "" } } }

/-- The CronScale that `inverted` decodes to. -/
def invertedScale : CronScaleV1 :=
  { Metadata := { Name := "" },
    Spec := { CronSpec := "", MinReplicas := 5, MaxReplicas := 2,
              TargetCPUUtilizationPercentage := 150,
              ScaleTargetRef := { Kind := "", Name := "" } } }

/-- The deployment `api` of namespace `default`, at version token `7`. -/
def apiDeployment : Deployment :=
  { Name := "api", Namespace := "default", ResourceVersion := "7", Replicas := some 2 }

/-- The autoscaler `api` of namespace `default`, at version token `41`. -/
def apiHPA : HorizontalPodAutoscaler :=
  { Name := "api", Namespace := "default", ResourceVersion := "41", MinReplicas := some 1,
    MaxReplicas := 5, TargetCPUUtilizationPercentage := some 80 }

/-- The deployment `api` as read at an earlier version token. -/
def staleDeployment : Deployment :=
  { apiDeployment with ResourceVersion := "6", Replicas := some 3 }

/-- The autoscaler `api` as read at an earlier version token. -/
def staleHPA : HorizontalPodAutoscaler :=
  { apiHPA with ResourceVersion := "40", MinReplicas := some 3 }

/-- A reachable cluster that holds `items` as the CronScale resources of
namespace `default`, next to the deployment and the autoscaler `api`. -/
def exampleCluster (items : List Unstructured) : Cluster Unstructured :=
  { reachable := true,
    namespaces := [{ Name := "default", Namespace := "", ResourceVersion := "1" },
      { Name := "kube-system", Namespace := "", ResourceVersion := "2" }],
    resources := items.map (fun u => (cronscales, "default", u)),
    deployments := [apiDeployment],
    hpas := [apiHPA] }

/-- The same cluster, out of reach. -/
def unreachableCluster : Cluster Unstructured :=
  { exampleCluster [] with reachable := false }

/-! ## The loops, in closed form -/

/-- Writing at the index just past `pre` replaces the element there. -/
theorem set_length_append_cons {β : Type} (pre : List β) (z v : β) (rest : List β) :
    (pre ++ z :: rest).set pre.length v = pre ++ v :: rest := by
  induction pre with
  | nil => rfl
  | cons a t ih => simp [ih]

/-- One round of the loop of `GetAllCRD` on a slot that still holds the zero
value: the slot gets `GetAllCRD.slot`, the log gets `GetAllCRD.lines`. -/
theorem GetAllCRD_body_eq {σ U B : Type} (codec : Codec U B) (pre rest : List CronScaleV1)
    (w : World σ) (entry : U) :
    GetAllCRD.body codec (pre ++ CronScaleV1.zero :: rest, w) (pre.length, entry) =
      (pre ++ GetAllCRD.slot codec entry :: rest,
        { w with log := w.log ++ GetAllCRD.lines codec entry }) := by
  rcases hm : codec.MarshalJSON entry with ⟨b, err⟩
  cases err with
  | some e => simp [GetAllCRD.body, GetAllCRD.slot, GetAllCRD.lines, hm, World.Errorln]
  | none =>
    rcases hu : codec.Unmarshal b CronScaleV1.zero with ⟨cs, err2⟩
    cases err2 with
    | some e =>
      simp [GetAllCRD.body, GetAllCRD.slot, GetAllCRD.lines, hm, hu, World.Errorln,
        set_length_append_cons]
    | none =>
      simp [GetAllCRD.body, GetAllCRD.slot, GetAllCRD.lines, hm, hu, set_length_append_cons]

/-- The loop of `GetAllCRD` over `l`, started after `pre` on zero slots: the
slots of `l` in order, and the lines of `l` in order. -/
theorem GetAllCRD_loop_eq {σ U B : Type} (codec : Codec U B) (l : List U) :
    ∀ (pre : List CronScaleV1) (w : World σ),
      (l.enumFrom pre.length).foldl (GetAllCRD.body codec)
          (pre ++ List.replicate l.length CronScaleV1.zero, w) =
        (pre ++ l.map (GetAllCRD.slot codec),
          { w with log := w.log ++ l.flatMap (GetAllCRD.lines codec) }) := by
  induction l with
  | nil => intro pre w; simp
  | cons x t ih =>
    intro pre w
    have h := ih (pre ++ [GetAllCRD.slot codec x])
      { w with log := w.log ++ GetAllCRD.lines codec x }
    simp only [List.length_append, List.length_singleton, List.append_assoc,
      List.singleton_append] at h
    simp only [List.enumFrom_cons, List.foldl_cons, List.length_cons, List.replicate_succ,
      GetAllCRD_body_eq, h, List.map_cons, List.flatMap_cons, List.append_assoc]

/-- The function `GetAllCRD` in closed form, by the outcome of its listing. -/
theorem GetAllCRD_eq {σ U B : Type} (dynClient : Clientset σ U) (codec : Codec U B)
    (nspace : String) (crd : GroupVersionResource) (w : World σ) :
    GetAllCRD dynClient codec nspace crd w =
      match (dynClient.ResourceList crd nspace w.store).1.2 with
      | some e =>
        ((none, some e),
          { store := (dynClient.ResourceList crd nspace w.store).2,
            calls := w.calls ++ [ApiCall.ResourceList crd nspace],
            log := w.log ++ [LogLine.println "== getting CRDs ==",
              LogLine.errorln (couldNotList e).msg] })
      | none =>
        ((some ((dynClient.ResourceList crd nspace w.store).1.1.map (GetAllCRD.slot codec)), none),
          { store := (dynClient.ResourceList crd nspace w.store).2,
            calls := w.calls ++ [ApiCall.ResourceList crd nspace],
            log := w.log ++ LogLine.println "== getting CRDs ==" ::
              (dynClient.ResourceList crd nspace w.store).1.1.flatMap (GetAllCRD.lines codec) }) := by
  rcases h : dynClient.ResourceList crd nspace w.store with ⟨⟨ls, err⟩, st⟩
  cases err with
  | some e => simp [GetAllCRD, World.request, World.Println, World.Errorln, h]
  | none =>
    have hl := GetAllCRD_loop_eq codec ls []
      ({ store := st, calls := w.calls ++ [ApiCall.ResourceList crd nspace],
         log := w.log ++ [LogLine.println "== getting CRDs =="] } : World σ)
    simp only [List.length_nil, List.nil_append] at hl
    simp [GetAllCRD, World.request, World.Println, h, List.enum, hl]

/-- The loop of `GetAllNS` over `l`, started after `pre`: the names of `l` in
order. -/
theorem GetAllNS_loop_eq (l : List Namespace) :
    ∀ (pre : List String),
      (l.enumFrom pre.length).foldl (fun result (x : Nat × Namespace) => result.set x.1 x.2.Name)
          (pre ++ List.replicate l.length "") = pre ++ l.map (fun n => n.Name) := by
  induction l with
  | nil => intro pre; simp
  | cons x t ih =>
    intro pre
    have h := ih (pre ++ [x.Name])
    simp only [List.length_append, List.length_singleton, List.append_assoc,
      List.singleton_append] at h
    simp only [List.enumFrom_cons, List.foldl_cons, List.length_cons, List.replicate_succ,
      set_length_append_cons, h, List.map_cons]

/-- The function `GetAllNS` in closed form, by the outcome of its listing. -/
theorem GetAllNS_eq {σ U : Type} (clientset : Clientset σ U) (w : World σ) :
    GetAllNS clientset w =
      match (clientset.NamespacesList w.store).1.2 with
      | some e =>
        ((none, some e),
          { store := (clientset.NamespacesList w.store).2,
            calls := w.calls ++ [ApiCall.NamespacesList],
            log := w.log ++ [LogLine.println "== getting namespaces ==", LogLine.errorln e.msg] })
      | none =>
        ((some ((clientset.NamespacesList w.store).1.1.map (fun n => n.Name)), none),
          { store := (clientset.NamespacesList w.store).2,
            calls := w.calls ++ [ApiCall.NamespacesList],
            log := w.log ++ [LogLine.println "== getting namespaces =="] }) := by
  rcases h : clientset.NamespacesList w.store with ⟨⟨ls, err⟩, st⟩
  cases err with
  | some e => simp [GetAllNS, World.request, World.Println, World.Errorln, h]
  | none =>
    have hl := GetAllNS_loop_eq ls []
    simp only [List.length_nil, List.nil_append] at hl
    simp [GetAllNS, World.request, World.Println, h, List.enum, hl]

/-- The slot of an item that marshals is what `Unmarshal` leaves for it. -/
theorem GetAllCRD_slot_of_decoded {U B : Type} (codec : Codec U B) (entry : U) (b : B)
    (cs : CronScaleV1) (err : Option GoError) (hm : codec.MarshalJSON entry = (b, none))
    (hu : codec.Unmarshal b CronScaleV1.zero = (cs, err)) :
    GetAllCRD.slot codec entry = cs := by
  simp [GetAllCRD.slot, hm, hu]

/-! ## The listing of custom resources -/

/-- C1: the error `GetAllCRD` returns is the error of its listing request, for
every namespace, resource kind, codec and cluster: `nil` when the listing
succeeds, whatever the items do in `MarshalJSON` and `Unmarshal`, and the
listing error when the listing fails. -/
theorem GetAllCRD_err_is_listing_err {σ U B : Type} (dynClient : Clientset σ U)
    (codec : Codec U B) (nspace : String) (crd : GroupVersionResource) (w : World σ) :
    (GetAllCRD dynClient codec nspace crd w).1.2 =
      (dynClient.ResourceList crd nspace w.store).1.2 := by
  rw [GetAllCRD_eq]
  cases h : (dynClient.ResourceList crd nspace w.store).1.2 <;> rfl

/-- C1 on the example cluster: a listing whose items fail in `Unmarshal` and in
`MarshalJSON` gives a `nil` error, and the listing of a cluster out of reach
gives the error of the listing. -/
theorem GetAllCRD_err_is_listing_err_witness :
    (GetAllCRD (clusterClientset Unstructured) jsonCodec "default" cronscales
      (World.start (exampleCluster [wrongType, unencodable]))).1.2 = none ∧
    (GetAllCRD (clusterClientset Unstructured) jsonCodec "default" cronscales
      (World.start unreachableCluster)).1.2 = some connectionRefused := by
  constructor
  · rw [GetAllCRD_err_is_listing_err]; rfl
  · rw [GetAllCRD_err_is_listing_err]; rfl

/-- C2: after a successful listing `GetAllCRD` returns a slice with one slot
per listed item, and slot `i` holds the CronScale decoded from item `i`
whenever that item marshals and unmarshals without error, whatever the other
items do. -/
theorem GetAllCRD_slot_holds_decoded {σ U B : Type} (dynClient : Clientset σ U)
    (codec : Codec U B) (nspace : String) (crd : GroupVersionResource) (w : World σ)
    (hlist : (dynClient.ResourceList crd nspace w.store).1.2 = none) :
    ∃ result, (GetAllCRD dynClient codec nspace crd w).1.1 = some result ∧
      result.length = (dynClient.ResourceList crd nspace w.store).1.1.length ∧
      ∀ (i : Nat) (entry : U) (b : B) (cs : CronScaleV1),
        (dynClient.ResourceList crd nspace w.store).1.1[i]? = some entry →
        codec.MarshalJSON entry = (b, none) →
        codec.Unmarshal b CronScaleV1.zero = (cs, none) →
        result[i]? = some cs := by
  refine ⟨(dynClient.ResourceList crd nspace w.store).1.1.map (GetAllCRD.slot codec), ?_, ?_, ?_⟩
  · rw [GetAllCRD_eq, hlist]
  · simp
  · intro i entry b cs hi hm hu
    simp [List.getElem?_map, hi, GetAllCRD_slot_of_decoded codec entry b cs none hm hu]

/-- C2 on the listing of `wrongType`, `unencodable` and `officeHours`: three
slots, and the third holds the CronScale of `officeHours` although the first
two items fail to decode. -/
theorem GetAllCRD_slot_holds_decoded_witness :
    ∃ result,
      (GetAllCRD (clusterClientset Unstructured) jsonCodec "default" cronscales
        (World.start (exampleCluster [wrongType, unencodable, officeHours]))).1.1 = some result ∧
      result.length = 3 ∧
      result[2]? = some officeHoursScale := by
  obtain ⟨result, h1, h2, h3⟩ := GetAllCRD_slot_holds_decoded (clusterClientset Unstructured)
    jsonCodec "default" cronscales
    (World.start (exampleCluster [wrongType, unencodable, officeHours])) (by decide)
  exact ⟨result, h1, h2, h3 2 officeHours _ _ (by rfl) (by rfl) (by rfl)⟩

/-- C3, as the code has it: when an item of a successful listing marshals and
then fails to unmarshal, `GetAllCRD` logs the error, still returns a `nil`
error and a slice with one slot per item in which every item that decodes
without error sits in its slot, and the slot of the failing item holds what
`Unmarshal` left in the zero CronScale it was given. -/
theorem GetAllCRD_unmarshal_failure {σ U B : Type} (dynClient : Clientset σ U)
    (codec : Codec U B) (nspace : String) (crd : GroupVersionResource) (w : World σ)
    (i : Nat) (entry : U) (b : B) (cs : CronScaleV1) (e : GoError)
    (hlist : (dynClient.ResourceList crd nspace w.store).1.2 = none)
    (hi : (dynClient.ResourceList crd nspace w.store).1.1[i]? = some entry)
    (hm : codec.MarshalJSON entry = (b, none))
    (hu : codec.Unmarshal b CronScaleV1.zero = (cs, some e)) :
    ∃ result, (GetAllCRD dynClient codec nspace crd w).1 = (some result, none) ∧
      LogLine.errorln e.msg ∈ (GetAllCRD dynClient codec nspace crd w).2.log ∧
      result.length = (dynClient.ResourceList crd nspace w.store).1.1.length ∧
      result[i]? = some cs ∧
      ∀ (j : Nat) (entry1 : U) (b1 : B) (cs1 : CronScaleV1),
        (dynClient.ResourceList crd nspace w.store).1.1[j]? = some entry1 →
        codec.MarshalJSON entry1 = (b1, none) →
        codec.Unmarshal b1 CronScaleV1.zero = (cs1, none) →
        result[j]? = some cs1 := by
  refine ⟨(dynClient.ResourceList crd nspace w.store).1.1.map (GetAllCRD.slot codec),
    ?_, ?_, ?_, ?_, ?_⟩
  · rw [GetAllCRD_eq, hlist]
  · rw [GetAllCRD_eq, hlist]
    have hmem : entry ∈ (dynClient.ResourceList crd nspace w.store).1.1 :=
      List.getElem?_mem hi
    have hline : LogLine.errorln e.msg ∈ GetAllCRD.lines codec entry := by
      simp [GetAllCRD.lines, hm, hu]
    simp only [List.mem_append, List.mem_cons, List.mem_flatMap]
    exact Or.inr (Or.inr ⟨entry, hmem, hline⟩)
  · simp
  · simp [List.getElem?_map, hi, GetAllCRD_slot_of_decoded codec entry b cs (some e) hm hu]
  · intro j entry1 b1 cs1 hj hm1 hu1
    simp [List.getElem?_map, hj, GetAllCRD_slot_of_decoded codec entry1 b1 cs1 none hm1 hu1]

/-- C3 on the listing of `specIsString` and `officeHours`: the first item fails
to unmarshal, the error is logged, its slot holds what `Unmarshal` left (here
the zero value), and the second item is decoded into its slot. -/
theorem GetAllCRD_unmarshal_failure_witness :
    ∃ result,
      (GetAllCRD (clusterClientset Unstructured) jsonCodec "default" cronscales
        (World.start (exampleCluster [specIsString, officeHours]))).1 = (some result, none) ∧
      LogLine.errorln "json: cannot unmarshal string into Go struct field spec" ∈
        (GetAllCRD (clusterClientset Unstructured) jsonCodec "default" cronscales
          (World.start (exampleCluster [specIsString, officeHours]))).2.log ∧
      result.length = 2 ∧
      result[0]? = some CronScaleV1.zero ∧
      result[1]? = some officeHoursScale := by
  obtain ⟨result, h1, h2, h3, h4, h5⟩ := GetAllCRD_unmarshal_failure
    (clusterClientset Unstructured) jsonCodec "default" cronscales
    (World.start (exampleCluster [specIsString, officeHours])) 0 specIsString
    specIsString.Object CronScaleV1.zero (typeError (.str "none") "spec")
    (by decide) (by rfl) (by rfl) (by rfl)
  exact ⟨result, h1, h2, h3, h4, h5 1 officeHours _ _ (by rfl) (by rfl) (by rfl)⟩

/-- C3, as stated, fails: the item `wrongType` marshals and fails to unmarshal
(`minReplicas` is a string), and its slot holds a CronScale with `MaxReplicas`
10, not the zero value. -/
theorem unmarshal_failure_leaves_nonzero_slot :
    (jsonCodec.MarshalJSON wrongType).2 = none ∧
    (jsonCodec.Unmarshal (jsonCodec.MarshalJSON wrongType).1 CronScaleV1.zero).2 =
      some (typeError (.str "three") "minReplicas") ∧
    (GetAllCRD (clusterClientset Unstructured) jsonCodec "default" cronscales
      (World.start (exampleCluster [wrongType]))).1 = (some [partlyDecoded], none) ∧
    partlyDecoded ≠ CronScaleV1.zero := by
  refine ⟨by rfl, by rfl, by rfl, by decide⟩

/-- C4: when two successful listings differ in one place only, where one has an
item that fails to decode (it fails to marshal, or it fails to unmarshal and
leaves the CronScale untouched) and the other an item that decodes without
error to the zero value, `GetAllCRD` returns the same slice and the same `nil`
error for both, with the zero value in that slot. -/
theorem GetAllCRD_conflates_failure_with_zero {σ U B : Type} (dynClient : Clientset σ U)
    (codec : Codec U B) (nspace : String) (crd : GroupVersionResource) (w1 w2 : World σ)
    (xs ys : List U) (a z : U)
    (h1 : (dynClient.ResourceList crd nspace w1.store).1 = (xs ++ a :: ys, none))
    (h2 : (dynClient.ResourceList crd nspace w2.store).1 = (xs ++ z :: ys, none))
    (ha : (codec.MarshalJSON a).2 ≠ none ∨
      ((codec.Unmarshal (codec.MarshalJSON a).1 CronScaleV1.zero).2 ≠ none ∧
        (codec.Unmarshal (codec.MarshalJSON a).1 CronScaleV1.zero).1 = CronScaleV1.zero))
    (hz : (codec.MarshalJSON z).2 = none ∧
      codec.Unmarshal (codec.MarshalJSON z).1 CronScaleV1.zero = (CronScaleV1.zero, none)) :
    (GetAllCRD dynClient codec nspace crd w1).1 = (GetAllCRD dynClient codec nspace crd w2).1 ∧
    ∃ result, (GetAllCRD dynClient codec nspace crd w1).1 = (some result, none) ∧
      result.length = xs.length + 1 + ys.length ∧
      result[xs.length]? = some CronScaleV1.zero := by
  have hsa : GetAllCRD.slot codec a = CronScaleV1.zero := by
    unfold GetAllCRD.slot
    rcases ha with ha | ⟨_, ha⟩
    · cases hm : (codec.MarshalJSON a).2 with
      | none => exact absurd hm ha
      | some e => rfl
    · cases hm : (codec.MarshalJSON a).2 with
      | none => simpa using ha
      | some e => rfl
  have hsz : GetAllCRD.slot codec z = CronScaleV1.zero := by
    unfold GetAllCRD.slot
    rw [hz.1]
    simp [hz.2]
  have e1 : (GetAllCRD dynClient codec nspace crd w1).1 =
      (some (xs.map (GetAllCRD.slot codec) ++ CronScaleV1.zero ::
        ys.map (GetAllCRD.slot codec)), none) := by
    rw [GetAllCRD_eq, h1]
    simp [hsa]
  have e2 : (GetAllCRD dynClient codec nspace crd w2).1 =
      (some (xs.map (GetAllCRD.slot codec) ++ CronScaleV1.zero ::
        ys.map (GetAllCRD.slot codec)), none) := by
    rw [GetAllCRD_eq, h2]
    simp [hsz]
  refine ⟨by rw [e1, e2], _, e1, ?_, ?_⟩
  · simp
    omega
  · rw [List.getElem?_append_right (by simp)]
    simp

/-- C4 on two listings that differ in the second item, `unencodable` in one and
`emptyItem` in the other: the same slice and the same `nil` error. -/
theorem GetAllCRD_conflates_failure_with_zero_witness :
    (GetAllCRD (clusterClientset Unstructured) jsonCodec "default" cronscales
        (World.start (exampleCluster [officeHours, unencodable]))).1 =
      (GetAllCRD (clusterClientset Unstructured) jsonCodec "default" cronscales
        (World.start (exampleCluster [officeHours, emptyItem]))).1 ∧
    ∃ result,
      (GetAllCRD (clusterClientset Unstructured) jsonCodec "default" cronscales
        (World.start (exampleCluster [officeHours, unencodable]))).1 = (some result, none) ∧
      result.length = 1 + 1 + 0 ∧
      result[1]? = some CronScaleV1.zero :=
  GetAllCRD_conflates_failure_with_zero (clusterClientset Unstructured) jsonCodec "default"
    cronscales (World.start (exampleCluster [officeHours, unencodable]))
    (World.start (exampleCluster [officeHours, emptyItem])) [officeHours] [] unencodable
    emptyItem (by rfl) (by rfl) (Or.inl (by decide)) ⟨by rfl, by rfl⟩

/-- C7, as the code has it: `GetAllCRD` checks no bound.  After a successful
listing every slot holds a CronScale, and that CronScale satisfies the
invariant of the data model exactly when its item marshals and what
`Unmarshal` leaves for it satisfies the invariant. -/
theorem GetAllCRD_valid_iff_decoded_valid {σ U B : Type} (dynClient : Clientset σ U)
    (codec : Codec U B) (nspace : String) (crd : GroupVersionResource) (w : World σ)
    (hlist : (dynClient.ResourceList crd nspace w.store).1.2 = none) :
    ∃ result, (GetAllCRD dynClient codec nspace crd w).1.1 = some result ∧
      result.length = (dynClient.ResourceList crd nspace w.store).1.1.length ∧
      ∀ (i : Nat) (entry : U),
        (dynClient.ResourceList crd nspace w.store).1.1[i]? = some entry →
        ∃ cs, result[i]? = some cs ∧
          (cs.valid ↔ ((codec.MarshalJSON entry).2 = none ∧
            (codec.Unmarshal (codec.MarshalJSON entry).1 CronScaleV1.zero).1.valid)) := by
  refine ⟨(dynClient.ResourceList crd nspace w.store).1.1.map (GetAllCRD.slot codec), ?_, ?_, ?_⟩
  · rw [GetAllCRD_eq, hlist]
  · simp
  · intro i entry hi
    refine ⟨GetAllCRD.slot codec entry, by simp [List.getElem?_map, hi], ?_⟩
    unfold GetAllCRD.slot
    cases hm : (codec.MarshalJSON entry).2 with
    | none => simp
    | some e =>
      simp only [false_and, iff_false, reduceCtorEq]
      decide

/-- C7 on the listing of `officeHours`, `inverted` and `unencodable`: the first
slot satisfies the invariant, the other two do not. -/
theorem GetAllCRD_valid_iff_decoded_valid_witness :
    ∃ result,
      (GetAllCRD (clusterClientset Unstructured) jsonCodec "default" cronscales
        (World.start (exampleCluster [officeHours, inverted, unencodable]))).1.1 = some result ∧
      result.length = 3 ∧
      (∃ cs, result[0]? = some cs ∧ cs.valid) ∧
      (∃ cs, result[1]? = some cs ∧ ¬ cs.valid) ∧
      (∃ cs, result[2]? = some cs ∧ ¬ cs.valid) := by
  obtain ⟨result, h1, h2, h3⟩ := GetAllCRD_valid_iff_decoded_valid
    (clusterClientset Unstructured) jsonCodec "default" cronscales
    (World.start (exampleCluster [officeHours, inverted, unencodable])) (by decide)
  refine ⟨result, h1, h2, ?_, ?_, ?_⟩
  · obtain ⟨cs, hc, hv⟩ := h3 0 officeHours (by rfl)
    exact ⟨cs, hc, hv.2 ⟨by rfl, by decide⟩⟩
  · obtain ⟨cs, hc, hv⟩ := h3 1 inverted (by rfl)
    exact ⟨cs, hc, fun h => absurd (hv.1 h).2 (by decide)⟩
  · obtain ⟨cs, hc, hv⟩ := h3 2 unencodable (by rfl)
    exact ⟨cs, hc, fun h => absurd (hv.1 h).1 (by decide)⟩

/-- C7, as stated, fails: the listing of `inverted` and `unencodable` succeeds,
and `GetAllCRD` returns for them a CronScale with 5 to 2 replicas at 150% and
the zero value, neither of which satisfies the invariant. -/
theorem listing_yields_invalid_cronscales :
    (GetAllCRD (clusterClientset Unstructured) jsonCodec "default" cronscales
      (World.start (exampleCluster [inverted, unencodable]))).1 =
        (some [invertedScale, CronScaleV1.zero], none) ∧
    ¬ invertedScale.valid ∧ ¬ CronScaleV1.zero.valid := by
  refine ⟨by rfl, by decide, by decide⟩

/-! ## The listing of namespaces -/

/-- C6: after a successful listing `GetAllNS` returns a `nil` error and a list
as long as the listing whose `i`-th element is the name of the `i`-th listed
namespace; after a failed listing it returns a `nil` list and the listing
error. -/
theorem GetAllNS_names_or_listing_err {σ U : Type} (clientset : Clientset σ U) (w : World σ) :
    ((clientset.NamespacesList w.store).1.2 = none →
      ∃ result, (GetAllNS clientset w).1 = (some result, none) ∧
        result.length = (clientset.NamespacesList w.store).1.1.length ∧
        ∀ (i : Nat) (n : Namespace), (clientset.NamespacesList w.store).1.1[i]? = some n →
          result[i]? = some n.Name) ∧
    (∀ e, (clientset.NamespacesList w.store).1.2 = some e →
      (GetAllNS clientset w).1 = (none, some e)) := by
  constructor
  · intro hlist
    refine ⟨(clientset.NamespacesList w.store).1.1.map (fun n => n.Name), ?_, ?_, ?_⟩
    · rw [GetAllNS_eq, hlist]
    · simp
    · intro i n hi
      simp [List.getElem?_map, hi]
  · intro e hlist
    rw [GetAllNS_eq, hlist]

/-- C6 on the example cluster, whose two namespaces come back by name and in
order, and on the cluster out of reach, whose listing error comes back with a
`nil` list. -/
theorem GetAllNS_names_or_listing_err_witness :
    (∃ result,
      (GetAllNS (clusterClientset Unstructured) (World.start (exampleCluster []))).1 =
        (some result, none) ∧
      result.length = 2 ∧ result[0]? = some "default" ∧ result[1]? = some "kube-system") ∧
    (GetAllNS (clusterClientset Unstructured) (World.start unreachableCluster)).1 =
      (none, some connectionRefused) := by
  constructor
  · obtain ⟨result, h1, h2, h3⟩ := (GetAllNS_names_or_listing_err
      (clusterClientset Unstructured) (World.start (exampleCluster []))).1 (by decide)
    exact ⟨result, h1, h2,
      h3 0 { Name := "default", Namespace := "", ResourceVersion := "1" } (by rfl),
      h3 1 { Name := "kube-system", Namespace := "", ResourceVersion := "2" } (by rfl)⟩
  · exact (GetAllNS_names_or_listing_err (clusterClientset Unstructured)
      (World.start unreachableCluster)).2 connectionRefused (by decide)

/-! ## Reads and updates of single objects -/

/-- C8: `GetDeployment` and `GetHPA` each issue one read, for the namespace and
name they were given, and return the object and the error of that read
unchanged. -/
theorem GetDeployment_GetHPA_return_the_read {σ U : Type} (clientset : Clientset σ U)
    (ns name : String) (w : World σ) :
    ((GetDeployment clientset ns name w).1 = (clientset.DeploymentsGet ns name w.store).1 ∧
      (GetDeployment clientset ns name w).2.calls = w.calls ++ [ApiCall.DeploymentsGet ns name] ∧
      (GetDeployment clientset ns name w).2.store = (clientset.DeploymentsGet ns name w.store).2) ∧
    ((GetHPA clientset ns name w).1 = (clientset.HorizontalPodAutoscalersGet ns name w.store).1 ∧
      (GetHPA clientset ns name w).2.calls =
        w.calls ++ [ApiCall.HorizontalPodAutoscalersGet ns name] ∧
      (GetHPA clientset ns name w).2.store =
        (clientset.HorizontalPodAutoscalersGet ns name w.store).2) := by
  constructor
  · rcases h : clientset.DeploymentsGet ns name w.store with ⟨⟨d, err⟩, st⟩
    cases err <;> simp [GetDeployment, World.request, World.Println, World.Errorln, h]
  · rcases h : clientset.HorizontalPodAutoscalersGet ns name w.store with ⟨⟨d, err⟩, st⟩
    cases err <;> simp [GetHPA, World.request, World.Println, World.Errorln, h]

/-- C8 on the example cluster: the deployment and the autoscaler held under
`default` and `api` come back with a `nil` error, and a name the cluster does
not hold comes back as its not-found error. -/
theorem GetDeployment_GetHPA_return_the_read_witness :
    (GetDeployment (clusterClientset Unstructured) "default" "api"
      (World.start (exampleCluster []))).1 = (some apiDeployment, none) ∧
    (GetHPA (clusterClientset Unstructured) "default" "api"
      (World.start (exampleCluster []))).1 = (some apiHPA, none) ∧
    (GetHPA (clusterClientset Unstructured) "default" "web"
      (World.start (exampleCluster []))).1 = (none, some (notFound "web")) ∧
    (GetHPA (clusterClientset Unstructured) "default" "web"
      (World.start (exampleCluster []))).2.calls =
        [ApiCall.HorizontalPodAutoscalersGet "default" "web"] := by
  refine ⟨?_, ?_, ?_, ?_⟩
  · rw [(GetDeployment_GetHPA_return_the_read (clusterClientset Unstructured) "default" "api"
      (World.start (exampleCluster []))).1.1]; rfl
  · rw [(GetDeployment_GetHPA_return_the_read (clusterClientset Unstructured) "default" "api"
      (World.start (exampleCluster []))).2.1]; rfl
  · rw [(GetDeployment_GetHPA_return_the_read (clusterClientset Unstructured) "default" "web"
      (World.start (exampleCluster []))).2.1]; rfl
  · rw [(GetDeployment_GetHPA_return_the_read (clusterClientset Unstructured) "default" "web"
      (World.start (exampleCluster []))).2.2.1]; rfl

/-- C5: `UpdateDeployment` and `UpdateHPA` each issue one update request and
return the error of that request, `nil` or not, unchanged: a conflict the
cluster answers with is what the caller gets, after a single attempt. -/
theorem UpdateDeployment_UpdateHPA_return_the_update_err {σ U : Type}
    (clientset : Clientset σ U) (deployment : Deployment) (ns : String)
    (hpa : HorizontalPodAutoscaler) (w : World σ) :
    ((UpdateDeployment clientset deployment w).1 =
        (clientset.DeploymentsUpdate deployment.Namespace deployment w.store).1.2 ∧
      (UpdateDeployment clientset deployment w).2.calls =
        w.calls ++ [ApiCall.DeploymentsUpdate deployment.Namespace deployment] ∧
      (UpdateDeployment clientset deployment w).2.store =
        (clientset.DeploymentsUpdate deployment.Namespace deployment w.store).2) ∧
    ((UpdateHPA clientset ns hpa w).1 =
        (clientset.HorizontalPodAutoscalersUpdate ns hpa w.store).1.2 ∧
      (UpdateHPA clientset ns hpa w).2.calls =
        w.calls ++ [ApiCall.HorizontalPodAutoscalersUpdate ns hpa] ∧
      (UpdateHPA clientset ns hpa w).2.store =
        (clientset.HorizontalPodAutoscalersUpdate ns hpa w.store).2) := by
  constructor
  · rcases h : clientset.DeploymentsUpdate deployment.Namespace deployment w.store with
      ⟨⟨d, err⟩, st⟩
    simp [UpdateDeployment, World.request, World.Println, h]
  · rcases h : clientset.HorizontalPodAutoscalersUpdate ns hpa w.store with ⟨⟨d, err⟩, st⟩
    cases err <;> simp [UpdateHPA, World.request, World.Println, World.Errorln, h]

/-- C5 on the example cluster, for a deployment and an autoscaler that carry a
version token older than the one held: each update is refused with a version
conflict, the conflict is what the function returns, and the trace holds the
one request. -/
theorem UpdateDeployment_UpdateHPA_return_the_update_err_witness :
    ((UpdateDeployment (clusterClientset Unstructured) staleDeployment
        (World.start (exampleCluster []))).1 = some (versionConflict "api") ∧
      (UpdateDeployment (clusterClientset Unstructured) staleDeployment
        (World.start (exampleCluster []))).2.calls =
          [ApiCall.DeploymentsUpdate "default" staleDeployment]) ∧
    ((UpdateHPA (clusterClientset Unstructured) "default" staleHPA
        (World.start (exampleCluster []))).1 = some (versionConflict "api") ∧
      (UpdateHPA (clusterClientset Unstructured) "default" staleHPA
        (World.start (exampleCluster []))).2.calls =
          [ApiCall.HorizontalPodAutoscalersUpdate "default" staleHPA]) := by
  have h := UpdateDeployment_UpdateHPA_return_the_update_err (clusterClientset Unstructured)
    staleDeployment "default" staleHPA (World.start (exampleCluster []))
  refine ⟨⟨?_, ?_⟩, ⟨?_, ?_⟩⟩
  · rw [h.1.1]; rfl
  · rw [h.1.2.1]; rfl
  · rw [h.2.1]; rfl
  · rw [h.2.2.1]; rfl

/-- C10: `UpdateDeployment` sends its update to the namespace recorded on the
deployment, and `UpdateHPA` sends its update to its argument `ns`, whatever
namespace the autoscaler records: the request in the trace, the cluster state
after the call and the error returned are those of the one update made in
that namespace. -/
theorem UpdateDeployment_UpdateHPA_request_namespace {σ U : Type}
    (clientset : Clientset σ U) (deployment : Deployment) (ns : String)
    (hpa : HorizontalPodAutoscaler) (w : World σ) :
    ((UpdateDeployment clientset deployment w).2.calls =
        w.calls ++ [ApiCall.DeploymentsUpdate deployment.Namespace deployment] ∧
      (UpdateDeployment clientset deployment w).2.store =
        (clientset.DeploymentsUpdate deployment.Namespace deployment w.store).2 ∧
      (UpdateDeployment clientset deployment w).1 =
        (clientset.DeploymentsUpdate deployment.Namespace deployment w.store).1.2) ∧
    ((UpdateHPA clientset ns hpa w).2.calls =
        w.calls ++ [ApiCall.HorizontalPodAutoscalersUpdate ns hpa] ∧
      (UpdateHPA clientset ns hpa w).2.store =
        (clientset.HorizontalPodAutoscalersUpdate ns hpa w.store).2 ∧
      (UpdateHPA clientset ns hpa w).1 =
        (clientset.HorizontalPodAutoscalersUpdate ns hpa w.store).1.2) := by
  constructor
  · rcases h : clientset.DeploymentsUpdate deployment.Namespace deployment w.store with
      ⟨⟨d, err⟩, st⟩
    simp [UpdateDeployment, World.request, World.Println, h]
  · rcases h : clientset.HorizontalPodAutoscalersUpdate ns hpa w.store with ⟨⟨d, err⟩, st⟩
    cases err <;> simp [UpdateHPA, World.request, World.Println, World.Errorln, h]

/-- C10 on the example cluster, which holds the deployment and the autoscaler
`api` under `default` and refuses an update sent to another namespace than
the object records.  `UpdateDeployment` lands in `default`: the held
deployment is replaced.  `UpdateHPA` with `ns` = `staging` is sent to
`staging`: it is refused for the mismatch and the autoscaler held under
`default` stays as it was, while the same autoscaler sent with `ns` =
`default` is accepted. -/
theorem UpdateDeployment_UpdateHPA_request_namespace_witness :
    apiHPA.Namespace = "default" ∧
    ((UpdateDeployment (clusterClientset Unstructured) apiDeployment
        (World.start (exampleCluster []))).2.calls =
          [ApiCall.DeploymentsUpdate "default" apiDeployment] ∧
      (UpdateDeployment (clusterClientset Unstructured) apiDeployment
        (World.start (exampleCluster []))).2.store.deployments =
          [{ apiDeployment with ResourceVersion := "7+" }] ∧
      (UpdateDeployment (clusterClientset Unstructured) apiDeployment
        (World.start (exampleCluster []))).1 = none) ∧
    ((UpdateHPA (clusterClientset Unstructured) "staging" apiHPA
        (World.start (exampleCluster []))).2.calls =
          [ApiCall.HorizontalPodAutoscalersUpdate "staging" apiHPA] ∧
      (UpdateHPA (clusterClientset Unstructured) "staging" apiHPA
        (World.start (exampleCluster []))).2.store.hpas = [apiHPA] ∧
      (UpdateHPA (clusterClientset Unstructured) "staging" apiHPA
        (World.start (exampleCluster []))).1 = some namespaceMismatch) ∧
    ((UpdateHPA (clusterClientset Unstructured) "default" apiHPA
        (World.start (exampleCluster []))).2.store.hpas =
          [{ apiHPA with ResourceVersion := "41+" }] ∧
      (UpdateHPA (clusterClientset Unstructured) "default" apiHPA
        (World.start (exampleCluster []))).1 = none) := by
  have h := UpdateDeployment_UpdateHPA_request_namespace (clusterClientset Unstructured)
    apiDeployment "staging" apiHPA (World.start (exampleCluster []))
  have g := UpdateDeployment_UpdateHPA_request_namespace (clusterClientset Unstructured)
    apiDeployment "default" apiHPA (World.start (exampleCluster []))
  refine ⟨rfl, ⟨h.1.1, ?_, ?_⟩, ⟨h.2.1, ?_, ?_⟩, ⟨?_, ?_⟩⟩
  · rw [h.1.2.1]; rfl
  · rw [h.1.2.2]; rfl
  · rw [h.2.2.1]; rfl
  · rw [h.2.2.2]; rfl
  · rw [g.2.2.1]; rfl
  · rw [g.2.2.2]; rfl

end Chpa
